import Mathlib

/-
Verification of the log record extraction and classification engine:
the `analyze_logs` field extractor and the `parse_log_file` severity
classifier of `Week 3/Epoch_Time_Converter_with_GUI.ipynb`.

The Python code is shallowly embedded over `List Char`.  Text blobs are
character lists; the regular expressions of the source are unfolded into
their exact matching semantics on such lists (including the backtracking
behaviour of `re.search` / `re.findall`, non-overlapping scanning, and
last-repetition capture groups).  Python's Unicode-aware classes
`\w`, `\d`, `\s` are modelled on their ASCII fragment, which is the
fragment exercised by the log format.
-/

set_option maxRecDepth 8000

namespace LogTriage

/-- Python `\s` (ASCII fragment): the whitespace characters recognised by
`str.strip` and by the `\s` class of the status-code regex. -/
def pySpace (c : Char) : Bool :=
  c = ' ' || c = '\t' || c = '\n' || c = '\r' || c = '\x0b' || c = '\x0c'

/-- Python `\w` (ASCII fragment): letters, digits and underscore. -/
def pyWord (c : Char) : Bool :=
  c.isAlphanum || c = '_'

/-- The character class `[\=\"\w \.]` of the severity regex
`\w*level=(warning|error)*[\w ]*[\=\"\w \.]*[fF]ailed`.  Since the earlier
class `[\w ]` is a subset of this one, the two starred classes together
accept exactly the strings over this class. -/
def classB (c : Char) : Bool :=
  pyWord c || c = ' ' || c = '=' || c = '"' || c = '.'

/-- Python `line.strip()`: remove leading and trailing whitespace. -/
def pyStrip (cs : List Char) : List Char :=
  ((cs.dropWhile pySpace).reverse.dropWhile pySpace).reverse

/-- Split a blob into lines at `'\n'`, as iterating over a text file does
(the terminators themselves are removed; `strip` would remove them anyway). -/
def splitLines : List Char → List (List Char)
  | [] => [[]]
  | c :: rest =>
    if c = '\n' then [] :: splitLines rest
    else
      match splitLines rest with
      | l :: ls => (c :: l) :: ls
      | [] => [[c]]

/-! ## Field Extractor — `analyze_logs`

`ip_pattern = r"\b(?:[0-9]{1,3}\.){3}[0-9]{1,3}\b"`,
`request_pattern = r'"(GET|POST|PUT|DELETE)'`,
`status_pattern = r'\s(\d{3})\s'`, each scanned with `re.findall` and
aggregated with `collections.Counter`. -/

/-- `re.findall(request_pattern, blob)`: scan left to right; at each
position try `"(GET|POST|PUT|DELETE)` with the alternatives in the regex's
order; a match contributes its captured verb and consumes its whole span, a
failure advances one character. -/
def findVerbs : List Char → List (List Char)
  | [] => []
  | c :: rest =>
    if c = '"' then
      match rest with
      | 'G' :: 'E' :: 'T' :: rest2 => "GET".data :: findVerbs rest2
      | 'P' :: 'O' :: 'S' :: 'T' :: rest2 => "POST".data :: findVerbs rest2
      | 'P' :: 'U' :: 'T' :: rest2 => "PUT".data :: findVerbs rest2
      | 'D' :: 'E' :: 'L' :: 'E' :: 'T' :: 'E' :: rest2 => "DELETE".data :: findVerbs rest2
      | other => findVerbs other
    else findVerbs rest

/-- `re.findall(status_pattern, blob)`: at each position try `\s(\d{3})\s`
(whitespace, exactly three digits — the capture — then whitespace); a match
consumes all five characters including the trailing whitespace, so
back-to-back codes sharing one separator are not both found — exactly as in
the source; a failure advances one character. -/
def findStatuses : List Char → List (List Char)
  | s0 :: d1 :: d2 :: d3 :: s1 :: rest =>
    if pySpace s0 && d1.isDigit && d2.isDigit && d3.isDigit && pySpace s1
    then [d1, d2, d3] :: findStatuses rest
    else findStatuses (d1 :: d2 :: d3 :: s1 :: rest)
  | _ => []

/-- One `[0-9]{1,3}` group: the maximal digit run must have length 1 to 3
(backtracking to a shorter run can never help, because the character after a
shortened run is again a digit, which neither `\.` nor `\b` accepts). -/
def octet (cs : List Char) : Option (List Char × List Char) :=
  let ds := cs.takeWhile Char.isDigit
  if 1 ≤ ds.length ∧ ds.length ≤ 3 then some (ds, cs.drop ds.length) else none

/-- A literal `.` followed by an octet. -/
def dotOctet : List Char → Option (List Char × List Char)
  | '.' :: r => octet r
  | _ => none

/-- Attempt of `(?:[0-9]{1,3}\.){3}[0-9]{1,3}\b` at the head of the list:
on success, the matched address text and (match length − 1).  The trailing
`\b` demands that the next character, if any, is not a word character. -/
def ipAt (cs : List Char) : Option (List Char × Nat) :=
  match octet cs with
  | none => none
  | some (d1, r1) =>
    match dotOctet r1 with
    | none => none
    | some (d2, r2) =>
      match dotOctet r2 with
      | none => none
      | some (d3, r3) =>
        match dotOctet r3 with
        | none => none
        | some (d4, r4) =>
          if (match r4 with | [] => true | c :: _ => !pyWord c)
          then some (d1 ++ '.' :: (d2 ++ '.' :: (d3 ++ '.' :: d4)),
                     d1.length + d2.length + d3.length + d4.length + 2)
          else none

/-- The leading `\b` of the address pattern: the address starts with a digit,
so the boundary holds exactly when the preceding character (if any) is not a
word character. -/
def prevOk : Option Char → Bool
  | none => true
  | some p => !pyWord p

/-- The scanning loop of `re.findall(ip_pattern, blob)`: scan left to right,
tracking the previous character for the word-boundary test; a match consumes
its span.  `fuel` bounds the number of scan steps; since every step consumes
at least one character, `cs.length` steps always suffice (see `findIPs`). -/
def ipScan : Nat → Option Char → List Char → List (List Char)
  | 0, _, _ => []
  | _, _, [] => []
  | fuel + 1, prev, c :: rest =>
    if prevOk prev then
      match ipAt (c :: rest) with
      | some (v, k) => v :: ipScan fuel (some (v.getLastD '0')) (rest.drop k)
      | none => ipScan fuel (some c) rest
    else ipScan fuel (some c) rest

/-- `re.findall(ip_pattern, blob)`, given the character preceding the scan
start (`none` at the beginning of the blob). -/
def findIPs (prev : Option Char) (cs : List Char) : List (List Char) :=
  ipScan cs.length prev cs

/-- One step of `collections.Counter` construction: increment the entry of
`v`, creating it (at the end, i.e. in first-seen order) if absent. -/
def bump : List (List Char × Nat) → List Char → List (List Char × Nat)
  | [], v => [(v, 1)]
  | (k, n) :: rest, v =>
    if k = v then (k, n + 1) :: rest else (k, n) :: bump rest v

/-- `collections.Counter(vs)` as an insertion-ordered association list. -/
def counter (vs : List (List Char)) : List (List Char × Nat) :=
  vs.foldl bump []

/-- Lookup in a frequency table: `some n` when the key is present. -/
def countOf : List (List Char × Nat) → List Char → Option Nat
  | [], _ => none
  | (k, n) :: rest, v => if k = v then some n else countOf rest v

/-- `analyze_logs` without its GUI shell: the three frequency tables
(addresses, request verbs, status codes) built from the blob. -/
def extract (blob : List Char) :
    List (List Char × Nat) × List (List Char × Nat) × List (List Char × Nat) :=
  (counter (findIPs none blob), counter (findVerbs blob), counter (findStatuses blob))

/-- The three field categories of the extractor. -/
inductive LogField
  | address
  | verb
  | status

/-- The raw match list of one category. -/
def matchesOf : LogField → List Char → List (List Char)
  | .address, b => findIPs none b
  | .verb, b => findVerbs b
  | .status, b => findStatuses b

/-- Project one category's table out of `extract`'s result. -/
def tableOf :
    LogField →
    List (List Char × Nat) × List (List Char × Nat) × List (List Char × Nat) →
    List (List Char × Nat)
  | .address, t => t.1
  | .verb, t => t.2.1
  | .status, t => t.2.2

/-! ## Severity Classifier — `parse_log_file`

Per stripped non-blank line, `re.search` of
`\w*level=(warning|error)*[\w ]*[\=\"\w \.]*[fF]ailed`, then dispatch on
`group(1)`. -/

/-- Attempt of `[fF]ailed` at the head of the list. -/
def failedAt : List Char → Bool
  | c :: rest =>
    if (c = 'f' ∨ c = 'F') ∧ rest.take 5 = "ailed".data then true else false
  | [] => false

/-- Matching of `[\w ]*[\=\"\w \.]*[fF]ailed` at the head of the list.
Because `[\w ]` is contained in `[\=\"\w \.]`, the two starred classes accept
exactly the strings over `classB`; the regex engine's backtracking therefore
succeeds iff walking over `classB` characters reaches a `[fF]ailed` token. -/
def failedSearchB : List Char → Bool
  | [] => false
  | c :: rest =>
    if failedAt (c :: rest) then true
    else if classB c then failedSearchB rest else false

/-- The greedy `(warning|error)*` star: consume repetitions as long as one of
the alternatives matches, remembering the last repetition as the value of
`group(1)` (Python keeps the last iteration's capture; zero iterations leave
the group as `None`).  Backtracking to fewer repetitions never changes match
success, because the repetition text contains no `f`/`F`, so a `[fF]ailed`
token can never begin inside it. -/
def starReps : Option (List Char) → List Char → Option (List Char) × List Char
  | _, 'w' :: 'a' :: 'r' :: 'n' :: 'i' :: 'n' :: 'g' :: rest =>
    starReps (some "warning".data) rest
  | _, 'e' :: 'r' :: 'r' :: 'o' :: 'r' :: rest =>
    starReps (some "error".data) rest
  | g, cs => (g, cs)

/-- Matching of the part of the severity regex after `level=`: the starred
group, the two starred classes, then `[fF]ailed`.  Returns `some group1` on
success. -/
def restMatch (cs : List Char) : Option (Option (List Char)) :=
  let p := starReps none cs
  if failedSearchB p.2 then some p.1 else none

/-- `re.search` of the severity regex, reduced to its observable effect.
The leading `\w*` only lets a match start earlier inside the run of word
characters immediately before a literal `level=` (and `level=` cannot
overlap itself), so which start position wins never affects `group(1)`:
the result is the `group(1)` value at the first `level=` occurrence from
which the rest of the pattern matches, and `none` when no occurrence
works. -/
def searchLevel : List Char → Option (Option (List Char))
  | [] => none
  | c :: rest =>
    if (c :: rest).take 6 = "level=".data then
      match restMatch ((c :: rest).drop 6) with
      | some g => some g
      | none => searchLevel rest
    else searchLevel rest

/-- The loop body of `parse_log_file` over a list of raw lines: strip, skip
blanks, search, and dispatch on `group(1) == 'error'` / `== 'warning'`. -/
def classifyLines : List (List Char) → List (List Char) × List (List Char)
  | [] => ([], [])
  | raw :: rest =>
    let p := classifyLines rest
    let line := pyStrip raw
    if line.isEmpty then p
    else
      match searchLevel line with
      | some g =>
        if g = some "error".data then (line :: p.1, p.2)
        else if g = some "warning".data then (p.1, line :: p.2)
        else p
      | none => p

/-- `parse_log_file` without its file-system shell: the `(errors, warnings)`
pair produced from a text blob. -/
def classify (blob : List Char) : List (List Char) × List (List Char) :=
  classifyLines (splitLines blob)

/-- The stripped, non-blank lines of a blob — the records the classifier
actually processes. -/
def keptLines (blob : List Char) : List (List Char) :=
  ((splitLines blob).map pyStrip).filter (fun l => !l.isEmpty)

/-- The classifier's error test on one stripped line. -/
def isErr (l : List Char) : Bool :=
  decide (searchLevel l = some (some "error".data))

/-- The classifier's warning test on one stripped line. -/
def isWarn (l : List Char) : Bool :=
  decide (searchLevel l = some (some "warning".data))

/-- The processed lines excluded from both buckets. -/
def excludedLines (blob : List Char) : List (List Char) :=
  (keptLines blob).filter (fun l => !isErr l && !isWarn l)

/-- Some `[fF]ailed` token occurs at some position of the list. -/
def failedAnywhere : List Char → Bool
  | [] => false
  | c :: rest => failedAt (c :: rest) || failedAnywhere rest

/-- Some `level=` occurrence is followed, anywhere later in the list, by a
`[fF]ailed` token. -/
def levelThenFailed : List Char → Bool
  | [] => false
  | c :: rest =>
    (decide ((c :: rest).take 6 = "level=".data) &&
      failedAnywhere ((c :: rest).drop 6)) || levelThenFailed rest

/-- The spec's address shape: a group of 1–3 decimal digits. -/
def octetShape (ds : List Char) : Prop :=
  1 ≤ ds.length ∧ ds.length ≤ 3 ∧ ∀ c ∈ ds, c.isDigit = true

/-! ## Sample data -/

/-- The spec's fixed sample error line. -/
def errSample : List Char :=
  "time=\"2020-03-18T14:40:30Z\" level=error msg=\"Database stream initialisation failed.\"".data

/-- The spec's fixed sample warning line (no failure keyword). -/
def warnSample : List Char :=
  "time=\"2020-03-18T14:40:40Z\" level=warning msg=\"Archiving data source: old_records_2019\"".data

/-- A line whose level marker has value `error` and which contains `failed`
later in the same line, but with a `:` — a character outside the regex's
intervening classes — between the two. -/
def cexInterveningLine : List Char :=
  "level=error x: failed".data

/-- A line containing `level=warning` with no `failed`/`Failed` after it,
but carrying an earlier `level=error … failed` match. -/
def cexTwoMarkerLine : List Char :=
  "level=error a failed z level=warning b".data

/-- A blob whose three lines contain the spec's three sample request lines. -/
def verbStatusBlob : List Char :=
  ("192.168.1.1 - - \"GET /a HTTP/1.1\" 200\n" ++
   "10.0.0.2 - - \"POST /b HTTP/1.1\" 404\n" ++
   "192.168.1.1 - - \"GET /c HTTP/1.1\" 200\n").data

/-- A blob containing the semantically invalid address `999.999.999.999`. -/
def addrBlob : List Char :=
  "from 999.999.999.999 port 22".data

/-! ## Frequency-table lemmas -/

lemma countOf_bump (t : List (List Char × Nat)) (w v : List Char) :
    countOf (bump t w) v =
      if v = w then some ((countOf t v).getD 0 + 1) else countOf t v := by
  induction t with
  | nil =>
    by_cases h : v = w
    · subst h
      simp [bump, countOf]
    · simp only [bump, countOf]
      rw [if_neg fun hh => h hh.symm, if_neg h]
  | cons kn rest ih =>
    obtain ⟨k, n⟩ := kn
    by_cases hkw : k = w
    · subst hkw
      simp only [bump, if_pos rfl]
      by_cases hkv : k = v
      · subst hkv
        simp [countOf]
      · have hvk : ¬v = k := fun hh => hkv hh.symm
        simp [countOf, hkv, hvk]
    · simp only [bump, if_neg hkw]
      by_cases hkv : k = v
      · subst hkv
        have hvw : ¬k = w := hkw
        simp [countOf, hvw]
      · simp [countOf, hkv, ih]

lemma countOf_foldl_bump (vs : List (List Char)) :
    ∀ (t : List (List Char × Nat)) (v : List Char),
      countOf (vs.foldl bump t) v =
        if vs.count v = 0 then countOf t v
        else some ((countOf t v).getD 0 + vs.count v) := by
  induction vs with
  | nil => simp
  | cons w vs ih =>
    intro t v
    rw [List.foldl_cons, ih (bump t w) v]
    by_cases hvw : v = w
    · subst hvw
      rw [List.count_cons_self]
      rw [countOf_bump, if_pos rfl]
      by_cases h0 : vs.count v = 0
      · simp [h0]
      · rw [if_neg h0, if_neg (by omega)]
        simp
        omega
    · rw [List.count_cons_of_ne hvw]
      rw [countOf_bump, if_neg hvw]

/-- `Counter` counts every duplicate occurrence; keys with zero occurrences
are absent. -/
lemma countOf_counter (vs : List (List Char)) (v : List Char) :
    countOf (counter vs) v =
      if vs.count v = 0 then none else some (vs.count v) := by
  rw [counter, countOf_foldl_bump]
  by_cases h0 : vs.count v = 0
  · simp [h0, countOf]
  · simp [h0, countOf]

/-! ## Classifier characterisation lemmas -/

/-- The classifier loop is exactly an ordered filter over the stripped
non-blank lines: errors are the lines where `group(1) = error`, warnings
those where it is `warning`. -/
lemma classifyLines_eq_filter (ls : List (List Char)) :
    classifyLines ls =
      (((ls.map pyStrip).filter (fun l => !l.isEmpty)).filter isErr,
       ((ls.map pyStrip).filter (fun l => !l.isEmpty)).filter isWarn) := by
  induction ls with
  | nil => rfl
  | cons raw rest ih =>
    simp only [classifyLines, List.map_cons, List.filter_cons]
    by_cases hemp : (pyStrip raw).isEmpty
    · simp [hemp, ih]
    · simp only [hemp, Bool.not_false, if_pos, ite_true]
      cases hs : searchLevel (pyStrip raw) with
      | none =>
        have he : isErr (pyStrip raw) = false := by simp [isErr, hs]
        have hw : isWarn (pyStrip raw) = false := by simp [isWarn, hs]
        simp [he, hw, ih, Bool.not_true]
      | some g =>
        by_cases hg : g = some "error".data
        · subst hg
          have he : isErr (pyStrip raw) = true := by simp [isErr, hs]
          have hw : isWarn (pyStrip raw) = false := by
            simp only [isWarn, hs, decide_eq_false_iff_not]
            intro hcontra
            have := (Option.some.injEq _ _).mp hcontra
            have := (Option.some.injEq _ _).mp this
            exact absurd (congrArg List.length this) (by decide)
          simp [he, hw, ih]
        · by_cases hg2 : g = some "warning".data
          · subst hg2
            have he : isErr (pyStrip raw) = false := by
              simp only [isErr, hs, decide_eq_false_iff_not]
              intro hcontra
              have := (Option.some.injEq _ _).mp hcontra
              have := (Option.some.injEq _ _).mp this
              exact absurd (congrArg List.length this) (by decide)
            have hw : isWarn (pyStrip raw) = true := by simp [isWarn, hs]
            have hgne : ¬(some "warning".data = some "error".data) := by decide
            simp [he, hw, ih, hgne]
          · have he : isErr (pyStrip raw) = false := by
              simp only [isErr, hs, decide_eq_false_iff_not]
              intro hcontra
              exact hg ((Option.some.injEq _ _).mp hcontra)
            have hw : isWarn (pyStrip raw) = false := by
              simp only [isWarn, hs, decide_eq_false_iff_not]
              intro hcontra
              exact hg2 ((Option.some.injEq _ _).mp hcontra)
            simp [he, hw, ih, hg, hg2]

lemma classify_eq_filter (blob : List Char) :
    classify blob = ((keptLines blob).filter isErr, (keptLines blob).filter isWarn) := by
  rw [classify, classifyLines_eq_filter, keptLines]

lemma searchLevel_of_mem_errors {blob l : List Char}
    (h : l ∈ (classify blob).1) : searchLevel l = some (some "error".data) := by
  rw [classify_eq_filter] at h
  have := (List.mem_filter.mp h).2
  exact of_decide_eq_true this

lemma searchLevel_of_mem_warnings {blob l : List Char}
    (h : l ∈ (classify blob).2) : searchLevel l = some (some "warning".data) := by
  rw [classify_eq_filter] at h
  have := (List.mem_filter.mp h).2
  exact of_decide_eq_true this

lemma isErr_isWarn_false {l : List Char} (h : isErr l = true) : isWarn l = false := by
  have he : searchLevel l = some (some "error".data) := of_decide_eq_true h
  simp only [isWarn, he, decide_eq_false_iff_not]
  intro hcontra
  have := (Option.some.injEq _ _).mp hcontra
  have := (Option.some.injEq _ _).mp this
  exact absurd (congrArg List.length this) (by decide)

/-! ## Computation lemmas for the severity regex -/

lemma splitLines_single {cs : List Char} (h : ∀ c ∈ cs, c ≠ '\n') :
    splitLines cs = [cs] := by
  induction cs with
  | nil => rfl
  | cons c rest ih =>
    have hc : c ≠ '\n' := h c (List.mem_cons_self _ _)
    have hrest := ih (fun x hx => h x (List.mem_cons_of_mem _ hx))
    simp only [splitLines, if_neg hc]
    rw [hrest]

lemma searchLevel_append {pre s : List Char} (h : ∀ c ∈ pre, c ≠ 'l') :
    searchLevel (pre ++ s) = searchLevel s := by
  induction pre with
  | nil => rfl
  | cons c rest ih =>
    have hc : c ≠ 'l' := h c (List.mem_cons_self _ _)
    have hr := ih (fun x hx => h x (List.mem_cons_of_mem _ hx))
    have hne : ¬((c :: (rest ++ s)).take 6 = ['l', 'e', 'v', 'e', 'l', '=']) := by
      intro hcontra
      have hhd := congrArg List.head? hcontra
      have h1 : (((c :: (rest ++ s)).take 6).head?) = some c := rfl
      rw [h1] at hhd
      exact hc (Option.some.injEq _ _ |>.mp hhd)
    simp only [List.cons_append, searchLevel, List.append_eq]
    rw [if_neg hne]
    exact hr

lemma starReps_eq_self {g : Option (List Char)} {cs : List Char}
    (h1 : cs.take 7 ≠ "warning".data) (h2 : cs.take 5 ≠ "error".data) :
    starReps g cs = (g, cs) := by
  rw [starReps.eq_def]
  split
  · exact absurd rfl h1
  · exact absurd rfl h2
  · rfl

lemma failedAt_failed (post : List Char) : failedAt ("failed".data ++ post) = true := by
  show failedAt ('f' :: ("ailed".data ++ post)) = true
  have h5 : ("ailed".data ++ post).take 5 = "ailed".data := rfl
  simp [failedAt, h5]

lemma failedAt_Failed (post : List Char) : failedAt ("Failed".data ++ post) = true := by
  show failedAt ('F' :: ("ailed".data ++ post)) = true
  have h5 : ("ailed".data ++ post).take 5 = "ailed".data := rfl
  simp [failedAt, h5]

lemma failedSearchB_of_failedAt {cs : List Char} (h : failedAt cs = true) :
    failedSearchB cs = true := by
  cases cs with
  | nil => simp [failedAt] at h
  | cons c rest => simp [failedSearchB, h]

lemma failedSearchB_append {mid rest : List Char} (hmid : ∀ c ∈ mid, classB c = true)
    (h : failedSearchB rest = true) : failedSearchB (mid ++ rest) = true := by
  induction mid with
  | nil => simpa using h
  | cons c mid ih =>
    have hc : classB c = true := hmid c (List.mem_cons_self _ _)
    have hr := ih (fun x hx => hmid x (List.mem_cons_of_mem _ hx))
    simp only [List.cons_append, failedSearchB]
    by_cases hf : failedAt (c :: (mid ++ rest)) = true
    · simp [hf]
    · simp [hf, hc, hr]

lemma restMatch_level (lvl mid fkw post : List Char)
    (hlvl : lvl = "error".data ∨ lvl = "warning".data)
    (hfkw : fkw = "failed".data ∨ fkw = "Failed".data)
    (hmid : ∀ c ∈ mid, classB c = true)
    (hstop1 : (mid ++ (fkw ++ post)).take 7 ≠ "warning".data)
    (hstop2 : (mid ++ (fkw ++ post)).take 5 ≠ "error".data) :
    restMatch (lvl ++ (mid ++ (fkw ++ post))) = some (some lvl) := by
  have hfA : failedAt (fkw ++ post) = true := by
    rcases hfkw with h | h <;> subst h
    · exact failedAt_failed post
    · exact failedAt_Failed post
  have hfs : failedSearchB (mid ++ (fkw ++ post)) = true :=
    failedSearchB_append hmid (failedSearchB_of_failedAt hfA)
  have hstar : starReps none (lvl ++ (mid ++ (fkw ++ post))) =
      (some lvl, mid ++ (fkw ++ post)) := by
    rcases hlvl with h | h <;> subst h
    · show starReps (some "error".data) (mid ++ (fkw ++ post)) = _
      exact starReps_eq_self hstop1 hstop2
    · show starReps (some "warning".data) (mid ++ (fkw ++ post)) = _
      exact starReps_eq_self hstop1 hstop2
  simp only [restMatch, hstar, hfs, if_pos]

lemma searchLevel_marker {R : List Char} {g : Option (List Char)}
    (h : restMatch R = some g) : searchLevel ("level=".data ++ R) = some g := by
  show searchLevel ('l' :: ("evel=".data ++ R)) = some g
  simp only [searchLevel]
  rw [if_pos (show ('l' :: ("evel=".data ++ R)).take 6 = "level=".data from rfl)]
  have hd : ('l' :: ("evel=".data ++ R)).drop 6 = R := rfl
  rw [hd, h]

/-! ## Lemmas connecting matches to `level=` + `failed` occurrences -/

lemma failedSearchB_imp_anywhere : ∀ {cs : List Char},
    failedSearchB cs = true → failedAnywhere cs = true := by
  intro cs
  induction cs with
  | nil => simp [failedSearchB]
  | cons c rest ih =>
    intro h
    simp only [failedSearchB] at h
    simp only [failedAnywhere]
    by_cases hf : failedAt (c :: rest) = true
    · simp [hf]
    · rw [if_neg hf] at h
      by_cases hb : classB c = true
      · rw [if_pos hb] at h
        simp [ih h]
      · rw [if_neg hb] at h
        exact absurd h (by simp)

lemma starReps_suffix_aux :
    ∀ (n : Nat) (g : Option (List Char)) (cs : List Char), cs.length ≤ n →
      List.IsSuffix (starReps g cs).2 cs := by
  intro n
  induction n with
  | zero =>
    intro g cs hl
    have : cs = [] := List.length_eq_zero.mp (Nat.le_zero.mp hl)
    subst this
    exact List.suffix_rfl
  | succ n ih =>
    intro g cs hl
    rw [starReps.eq_def]
    split
    · rename_i rest
      refine (ih _ rest ?_).trans ⟨['w', 'a', 'r', 'n', 'i', 'n', 'g'], rfl⟩
      simp only [List.length_cons] at hl
      omega
    · rename_i rest
      refine (ih _ rest ?_).trans ⟨['e', 'r', 'r', 'o', 'r'], rfl⟩
      simp only [List.length_cons] at hl
      omega
    · exact List.suffix_rfl

lemma starReps_suffix (g : Option (List Char)) (cs : List Char) :
    List.IsSuffix (starReps g cs).2 cs :=
  starReps_suffix_aux cs.length g cs le_rfl

lemma failedAnywhere_of_suffix {s cs : List Char}
    (h : List.IsSuffix s cs) (hf : failedAnywhere s = true) :
    failedAnywhere cs = true := by
  obtain ⟨u, rfl⟩ := h
  induction u with
  | nil => simpa using hf
  | cons c u ih =>
    simp only [List.cons_append, failedAnywhere]
    simp [ih]

lemma searchLevel_levelThenFailed : ∀ {cs : List Char} {g : Option (List Char)},
    searchLevel cs = some g → levelThenFailed cs = true := by
  intro cs
  induction cs with
  | nil => intro g h; simp [searchLevel] at h
  | cons c rest ih =>
    intro g h
    simp only [searchLevel] at h
    simp only [levelThenFailed]
    by_cases h6 : (c :: rest).take 6 = "level=".data
    · rw [if_pos h6] at h
      cases hr : restMatch ((c :: rest).drop 6) with
      | some g' =>
        have hfs : failedSearchB (starReps none ((c :: rest).drop 6)).2 = true := by
          by_cases hcond : failedSearchB (starReps none ((c :: rest).drop 6)).2 = true
          · exact hcond
          · simp only [restMatch, if_neg hcond] at hr
            simp at hr
        have hfa : failedAnywhere ((c :: rest).drop 6) = true :=
          failedAnywhere_of_suffix (starReps_suffix none _) (failedSearchB_imp_anywhere hfs)
        have hfa5 : failedAnywhere (rest.drop 5) = true := by simpa using hfa
        simp [h6, hfa5]
      | none =>
        rw [hr] at h
        simp [ih h]
    · rw [if_neg h6] at h
      simp [ih h]

/-! ## Address shape lemmas -/

lemma octet_shape {cs ds r : List Char} (h : octet cs = some (ds, r)) :
    octetShape ds := by
  simp only [octet] at h
  split at h
  · rename_i hc
    have := (Option.some.injEq _ _).mp h
    have hds : cs.takeWhile Char.isDigit = ds := congrArg Prod.fst this
    subst hds
    exact ⟨hc.1, hc.2, fun c hcm => List.mem_takeWhile_imp hcm⟩
  · exact absurd h (by simp)

lemma dotOctet_shape {cs ds r : List Char} (h : dotOctet cs = some (ds, r)) :
    octetShape ds := by
  rw [dotOctet.eq_def] at h
  split at h
  · exact octet_shape h
  · exact absurd h (by simp)

lemma ipAt_shape {cs v : List Char} {k : Nat} (h : ipAt cs = some (v, k)) :
    ∃ a b c d, octetShape a ∧ octetShape b ∧ octetShape c ∧ octetShape d ∧
      v = a ++ '.' :: (b ++ '.' :: (c ++ '.' :: d)) := by
  simp only [ipAt] at h
  split at h
  · exact absurd h (by simp)
  · rename_i d1 r1 h1
    split at h
    · exact absurd h (by simp)
    · rename_i d2 r2 h2
      split at h
      · exact absurd h (by simp)
      · rename_i d3 r3 h3
        split at h
        · exact absurd h (by simp)
        · rename_i d4 r4 h4
          split at h
          · have hv := congrArg Prod.fst ((Option.some.injEq _ _).mp h)
            exact ⟨d1, d2, d3, d4, octet_shape h1, dotOctet_shape h2,
              dotOctet_shape h3, dotOctet_shape h4, hv.symm⟩
          · exact absurd h (by simp)

lemma mem_ipScan_shape : ∀ (fuel : Nat) (prev : Option Char) (cs v : List Char),
    v ∈ ipScan fuel prev cs →
    ∃ a b c d, octetShape a ∧ octetShape b ∧ octetShape c ∧ octetShape d ∧
      v = a ++ '.' :: (b ++ '.' :: (c ++ '.' :: d)) := by
  intro fuel
  induction fuel with
  | zero => intro prev cs v h; simp [ipScan] at h
  | succ fuel ih =>
    intro prev cs v h
    cases cs with
    | nil => simp [ipScan] at h
    | cons c rest =>
      simp only [ipScan] at h
      by_cases hp : prevOk prev = true
      · rw [if_pos hp] at h
        cases hip : ipAt (c :: rest) with
        | some vk =>
          obtain ⟨val, k⟩ := vk
          rw [hip] at h
          rcases List.mem_cons.mp h with he | ht
          · rw [he]
            exact ipAt_shape hip
          · exact ih _ _ _ ht
        | none =>
          rw [hip] at h
          exact ih _ _ _ h
      · rw [if_neg hp] at h
        exact ih _ _ _ h

lemma findVerbs_skip {pre s : List Char} (h : ∀ c ∈ pre, c ≠ '"') :
    findVerbs (pre ++ s) = findVerbs s := by
  induction pre with
  | nil => rfl
  | cons c rest ih =>
    have hc : c ≠ '"' := h c (List.mem_cons_self _ _)
    have hr := ih (fun x hx => h x (List.mem_cons_of_mem _ hx))
    rw [List.cons_append, findVerbs.eq_def]
    simp only [if_neg hc]
    exact hr

lemma findVerbs_at_verb (v post : List Char)
    (hv : v = "GET".data ∨ v = "POST".data ∨ v = "PUT".data ∨ v = "DELETE".data) :
    findVerbs ('"' :: (v ++ post)) = v :: findVerbs post := by
  rcases hv with h | h | h | h <;> subst h <;> rfl

/-! ## The claims -/

/-- C1, counterexample: the trimmed, non-blank line `level=error x: failed`
contains a `level=` marker with value `error` followed later in the same
line by `failed`, yet `classify` puts it in neither bucket: the intervening
text `x: ` contains `:`, which lies outside the regex's intervening
character classes, so the composite pattern does not match.  The claim's
"regardless of what intervening text appears" is therefore false. -/
theorem c1_counterexample :
    cexInterveningLine =
      "level=".data ++ ("error".data ++ (" x: ".data ++ "failed".data)) ∧
    pyStrip cexInterveningLine = cexInterveningLine ∧
    cexInterveningLine ≠ [] ∧
    classify cexInterveningLine = ([], []) := by decide

/-- C1 (amended): for every non-blank line consisting of a prefix free of
`l` (so the marker shown is the first one) and of newlines, the marker
`level=` with value `error` or `warning`, intervening text drawn from the
regex's classes (word characters, spaces, `=`, `"`, `.`) that does not
continue the level-value repetition, a `failed`/`Failed` keyword and an
arbitrary newline-free tail, `classify` appends the line to the bucket
named by the level value. -/
theorem c1_amended_intervening (pre lvl mid fkw post L : List Char)
    (hL : L = pre ++ ("level=".data ++ (lvl ++ (mid ++ (fkw ++ post)))))
    (hpre : ∀ c ∈ pre, c ≠ 'l' ∧ c ≠ '\n')
    (hlvl : lvl = "error".data ∨ lvl = "warning".data)
    (hfkw : fkw = "failed".data ∨ fkw = "Failed".data)
    (hmid : ∀ c ∈ mid, classB c = true)
    (hpost : ∀ c ∈ post, c ≠ '\n')
    (hstop1 : (mid ++ (fkw ++ post)).take 7 ≠ "warning".data)
    (hstop2 : (mid ++ (fkw ++ post)).take 5 ≠ "error".data)
    (hstrip : pyStrip L = L) :
    classify L = if lvl = "error".data then ([L], []) else ([], [L]) := by
  have hsl : searchLevel L = some (some lvl) := by
    rw [hL, searchLevel_append (fun c hc => (hpre c hc).1)]
    exact searchLevel_marker (restMatch_level lvl mid fkw post hlvl hfkw hmid hstop1 hstop2)
  have hnl : ∀ c ∈ L, c ≠ '\n' := by
    rw [hL]
    intro c hcm
    rcases List.mem_append.mp hcm with hp | hrest
    · exact (hpre c hp).2
    rcases List.mem_append.mp hrest with hm | hrest2
    · intro he; subst he; exact absurd hm (by decide)
    rcases List.mem_append.mp hrest2 with hl2 | hrest3
    · intro he
      subst he
      rcases hlvl with h | h <;> subst h <;> exact absurd hl2 (by decide)
    rcases List.mem_append.mp hrest3 with hm2 | hrest4
    · intro he
      subst he
      exact absurd (hmid '\n' hm2) (by decide)
    rcases List.mem_append.mp hrest4 with hf2 | hp2
    · intro he
      subst he
      rcases hfkw with h | h <;> subst h <;> exact absurd hf2 (by decide)
    · exact hpost c hp2
  have hone : splitLines L = [L] := splitLines_single hnl
  have hLne : L ≠ [] := by
    intro hLnil
    rw [hL] at hLnil
    have := congrArg List.length hLnil
    simp [List.length_append] at this
  rw [classify, hone]
  simp only [classifyLines]
  rw [hstrip]
  rw [hsl]
  rcases hlvl with h | h <;> subst h
  · simp [hLne]
  · have hne : ¬(some "warning".data = some "error".data) := by decide
    have hne2 : ¬("warning".data = "error".data) := by decide
    simp [hne, hne2, hLne]

/-- C1 witness: the spec's fixed sample error line instantiates the amended
claim and lands in the error bucket. -/
theorem c1_witness : classify errSample = ([errSample], []) := by
  have h := c1_amended_intervening
    "time=\"2020-03-18T14:40:30Z\" ".data
    "error".data
    " msg=\"Database stream initialisation ".data
    "failed".data
    ".\"".data
    errSample
    (by decide) (by decide) (Or.inl rfl) (Or.inl rfl)
    (by decide) (by decide) (by decide) (by decide) (by decide)
  exact h.trans (by decide)

/-- C2: for every blob, category and value, the frequency table returned by
`extract` maps a value occurring `N` times in that category's match list to
exactly `N`, and omits values with zero occurrences. -/
theorem c2_extract_counts (B : List Char) (cat : LogField) (v : List Char) :
    countOf (tableOf cat (extract B)) v =
      if (matchesOf cat B).count v = 0 then none
      else some ((matchesOf cat B).count v) := by
  cases cat <;> exact countOf_counter _ v

/-- C3: the processed (stripped, non-blank) lines of a blob are partitioned
by the classifier: every one is in the error bucket, in the warning bucket,
or counted among the excluded lines — none is discarded from the count, so
the total is observable from the blob even when both buckets are empty. -/
theorem c3_processed_line_partition (blob : List Char) :
    (keptLines blob).length =
      (classify blob).1.length + (classify blob).2.length + (excludedLines blob).length := by
  rw [classify_eq_filter, excludedLines]
  show (keptLines blob).length =
    ((keptLines blob).filter isErr).length + ((keptLines blob).filter isWarn).length +
      ((keptLines blob).filter (fun l => !isErr l && !isWarn l)).length
  generalize keptLines blob = K
  induction K with
  | nil => rfl
  | cons l K ih =>
    simp only [List.filter_cons]
    by_cases he : isErr l = true
    · have hw := isErr_isWarn_false he
      simp [he, hw]
      omega
    · by_cases hw : isWarn l = true
      · simp [he, hw]
        omega
      · simp [he, hw]
        omega

/-- C4: every value counted in the address table has the shape of four
dot-separated groups of 1–3 decimal digits, and no numeric range validation
is applied: `999.999.999.999` is counted as an address. -/
theorem c4_address_shape_permissive :
    (∀ (prev : Option Char) (blob v : List Char), v ∈ findIPs prev blob →
      ∃ a b c d, octetShape a ∧ octetShape b ∧ octetShape c ∧ octetShape d ∧
        v = a ++ '.' :: (b ++ '.' :: (c ++ '.' :: d))) ∧
    countOf (tableOf LogField.address (extract addrBlob)) "999.999.999.999".data = some 1 := by
  constructor
  · intro prev blob v h
    exact mem_ipScan_shape blob.length prev blob v h
  · decide

/-- C4 witness: the shape statement applied to the concrete quad-999 match. -/
theorem c4_witness :
    (∃ a b c d, octetShape a ∧ octetShape b ∧ octetShape c ∧ octetShape d ∧
      "999.999.999.999".data = a ++ '.' :: (b ++ '.' :: (c ++ '.' :: d))) ∧
    countOf (tableOf LogField.address (extract addrBlob)) "999.999.999.999".data = some 1 :=
  ⟨c4_address_shape_permissive.1 none addrBlob "999.999.999.999".data (by decide),
   c4_address_shape_permissive.2⟩

/-- C5: no line text appears in both the error and the warning sequence of
`classify`: membership in each bucket forces a distinct `group(1)` value of
the same pure search function. -/
theorem c5_disjoint_buckets (blob l : List Char) (h : l ∈ (classify blob).1) :
    l ∉ (classify blob).2 := by
  intro hw
  have he := searchLevel_of_mem_errors h
  have hwn := searchLevel_of_mem_warnings hw
  rw [he] at hwn
  have h1 := (Option.some.injEq _ _).mp hwn
  have h2 := (Option.some.injEq _ _).mp h1
  exact absurd (congrArg List.length h2) (by decide)

/-- C5 witness: the sample error line is in the error bucket and, by the
theorem, not in the warning bucket. -/
theorem c5_witness :
    errSample ∈ (classify errSample).1 ∧ errSample ∉ (classify errSample).2 :=
  ⟨by decide, c5_disjoint_buckets errSample errSample (by decide)⟩

/-- C6, counterexample: the line
`level=error a failed z level=warning b` contains `level=warning` with no
`failed`/`Failed` token after it (its tail ` b` has no `f`/`F` at all), yet
`classify` does not exclude it from both buckets — the earlier
`level=error … failed` match puts it in the error bucket. -/
theorem c6_counterexample :
    cexTwoMarkerLine =
      "level=error a failed z ".data ++ ("level=warning".data ++ " b".data) ∧
    ((" b".data.all fun c => decide (c ≠ 'f') && decide (c ≠ 'F')) = true) ∧
    pyStrip cexTwoMarkerLine = cexTwoMarkerLine ∧
    cexTwoMarkerLine ≠ [] ∧
    classify cexTwoMarkerLine = ([cexTwoMarkerLine], []) := by decide

/-- C6 (amended): a line in which no `level=` occurrence is followed later
in the line by a `failed`/`Failed` token — in particular one containing
`level=warning` and no failure keyword after any marker — is excluded from
both buckets of every blob. -/
theorem c6_amended_exclusion (blob l : List Char)
    (h : levelThenFailed l = false) :
    l ∉ (classify blob).1 ∧ l ∉ (classify blob).2 := by
  constructor
  · intro hm
    exact absurd (searchLevel_levelThenFailed (searchLevel_of_mem_errors hm))
      (by simp [h])
  · intro hm
    exact absurd (searchLevel_levelThenFailed (searchLevel_of_mem_warnings hm))
      (by simp [h])

/-- C6 witness: the spec's fixed sample warning line has no failure keyword
after its marker and is excluded from both buckets. -/
theorem c6_witness :
    levelThenFailed warnSample = false ∧
    warnSample ∉ (classify warnSample).1 ∧ warnSample ∉ (classify warnSample).2 :=
  ⟨by decide, (c6_amended_exclusion warnSample warnSample (by decide)).1,
   (c6_amended_exclusion warnSample warnSample (by decide)).2⟩

/-- C7: a blob whose three lines contain `GET /a HTTP/1.1" 200`,
`POST /b HTTP/1.1" 404` and `GET /c HTTP/1.1" 200` yields verb counts
GET ↦ 2, POST ↦ 1 and status counts 200 ↦ 2, 404 ↦ 1 (and nothing else) in
first-seen order. -/
theorem c7_sample_counts :
    verbStatusBlob =
      "192.168.1.1 - - \"".data ++ ("GET /a HTTP/1.1\" 200".data ++
        ("\n10.0.0.2 - - \"".data ++ ("POST /b HTTP/1.1\" 404".data ++
          ("\n192.168.1.1 - - \"".data ++ ("GET /c HTTP/1.1\" 200".data ++ "\n".data))))) ∧
    (extract verbStatusBlob).2.1 = [("GET".data, 2), ("POST".data, 1)] ∧
    (extract verbStatusBlob).2.2 = [("200".data, 2), ("404".data, 1)] := by decide

/-- C8: the empty blob yields three empty frequency tables from `extract`
and two empty sequences from `classify`; both are total functions, so no
error is possible. -/
theorem c8_empty_blob : extract [] = ([], [], []) ∧ classify [] = ([], []) := by decide

/-- C9: a double quote immediately followed by a verb of the enumerated set
is counted even when the verb letters are the prefix of a longer word — no
delimiter after the verb is required (the tail `post` is arbitrary, e.g.
`AWAY…`), and the verb's table entry counts this occurrence. -/
theorem c9_attached_verb (pre post v : List Char)
    (hv : v = "GET".data ∨ v = "POST".data ∨ v = "PUT".data ∨ v = "DELETE".data)
    (hpre : ∀ c ∈ pre, c ≠ '"') :
    findVerbs (pre ++ '"' :: (v ++ post)) = v :: findVerbs post ∧
    countOf (extract (pre ++ '"' :: (v ++ post))).2.1 v =
      some ((findVerbs post).count v + 1) := by
  have h1 : findVerbs (pre ++ '"' :: (v ++ post)) = v :: findVerbs post := by
    rw [findVerbs_skip hpre, findVerbs_at_verb v post hv]
  refine ⟨h1, ?_⟩
  show countOf (counter (findVerbs (pre ++ '"' :: (v ++ post)))) v = _
  rw [h1, countOf_counter, List.count_cons_self]
  rw [if_neg (by omega)]

/-- C9 witness: `"GETAWAY` increments GET. -/
theorem c9_witness :
    findVerbs ("log: ".data ++ '"' :: ("GET".data ++ "AWAY driver".data)) =
      "GET".data :: findVerbs "AWAY driver".data ∧
    countOf (extract ("log: ".data ++ '"' :: ("GET".data ++ "AWAY driver".data))).2.1
        "GET".data =
      some ((findVerbs "AWAY driver".data).count "GET".data + 1) :=
  c9_attached_verb "log: ".data "AWAY driver".data "GET".data (Or.inl rfl) (by decide)

/-- C10: `classify` preserves input order and multiplicity: the error
(resp. warning) sequence is exactly the ordered filter of the stripped
non-blank input lines by the composite pattern with level `error`
(resp. `warning`). -/
theorem c10_order_and_multiplicity (blob : List Char) :
    classify blob = ((keptLines blob).filter isErr, (keptLines blob).filter isWarn) :=
  classify_eq_filter blob

end LogTriage
